import Mathlib

/-!
Verification of the evaluation and orchestration core of the
Secure-Financial-Insights repository.

The Python sources are shallowly embedded: Python floats become rationals
(`ℚ`), Python strings become lists of characters (`PyStr`), Python dicts
become association lists preserving insertion order, and fallible code
returns `Except`.  Each definition mirrors one function of the repository,
named after it; external collaborators (the language model, the embedding
provider, the vector store, the regex based entity extractor) enter as
parameters, exactly at the call boundaries the code uses.
-/

set_option maxRecDepth 8000

namespace SFI

/-- Python `str` modelled as its list of characters (code points). -/
abbrev PyStr := List Char

/-- Python `min(max(x, 0.0), 1.0)`. -/
def clamp01 (x : ℚ) : ℚ := min (max x 0) 1

/-- Python `round(x, 4)`: rounding to four decimal places.  (CPython rounds
half to even; the two agree except exactly at ties, which no claim touches.) -/
def round4 (x : ℚ) : ℚ := (round (x * 10000) : ℤ) / 10000

theorem clamp01_nonneg (x : ℚ) : 0 ≤ clamp01 x :=
  le_min (le_max_right x 0) zero_le_one

theorem clamp01_le_one (x : ℚ) : clamp01 x ≤ 1 := min_le_right _ _

theorem clamp01_eq_self {x : ℚ} (h0 : 0 ≤ x) (h1 : x ≤ 1) : clamp01 x = x := by
  unfold clamp01
  rw [max_eq_left h0, min_eq_left h1]

theorem round4_nonneg {x : ℚ} (hx : 0 ≤ x) : 0 ≤ round4 x := by
  unfold round4
  have h1 : (0 : ℤ) ≤ round (x * 10000) := by
    rw [round_eq]
    exact Int.le_floor.2 (by push_cast; linarith)
  have h2 : (0 : ℚ) ≤ (round (x * 10000) : ℤ) := by exact_mod_cast h1
  positivity

theorem round4_le_one {x : ℚ} (hx : x ≤ 1) : round4 x ≤ 1 := by
  unfold round4
  have h1 : round (x * 10000) ≤ 10000 := by
    rw [round_eq]
    have hle : x * 10000 + 1 / 2 ≤ (10000 : ℚ) + 1 / 2 := by linarith
    calc ⌊x * 10000 + 1 / 2⌋ ≤ ⌊(10000 : ℚ) + 1 / 2⌋ := Int.floor_le_floor hle
      _ = 10000 := by
          rw [Int.floor_eq_iff]
          constructor <;> norm_num
  rw [div_le_one (by norm_num)]
  exact_mod_cast h1

theorem round4_eq_intCast (q : ℚ) (n : ℤ) (h : q * 10000 = (n : ℚ)) :
    round4 q = (n : ℚ) / 10000 := by
  unfold round4
  rw [h, round_intCast]

theorem round4_clamp01_mem (x : ℚ) :
    0 ≤ round4 (clamp01 x) ∧ round4 (clamp01 x) ≤ 1 :=
  ⟨round4_nonneg (clamp01_nonneg x), round4_le_one (clamp01_le_one x)⟩

/-- Python `str.strip()`: remove leading and trailing whitespace. -/
def pyStrip (s : PyStr) : PyStr :=
  ((s.dropWhile Char.isWhitespace).reverse.dropWhile Char.isWhitespace).reverse

theorem length_dropWhile_le (p : Char → Bool) :
    ∀ l : PyStr, (l.dropWhile p).length ≤ l.length := by
  intro l
  induction l with
  | nil => simp
  | cons c cs ih =>
      by_cases h : p c
      · simp only [List.dropWhile_cons, h, if_true]
        exact Nat.le_succ_of_le ih
      · simp [List.dropWhile_cons, h]

theorem pyStrip_length_le (s : PyStr) : (pyStrip s).length ≤ s.length := by
  unfold pyStrip
  rw [List.length_reverse]
  calc ((s.dropWhile Char.isWhitespace).reverse.dropWhile Char.isWhitespace).length
      ≤ (s.dropWhile Char.isWhitespace).reverse.length := length_dropWhile_le _ _
    _ = (s.dropWhile Char.isWhitespace).length := List.length_reverse _
    _ ≤ s.length := length_dropWhile_le _ _

/-! ### Evaluation pipeline verdict (src/evaluation/evaluator.py) -/

/-- Verdict classification (models.schemas.EvaluationStatus). -/
inductive EvaluationStatus where
  | passed
  | flagged
  | failed
deriving DecidableEq, Repr

/-- The evaluation-relevant settings, with the defaults of core/config.py. -/
structure Settings where
  hallucination_threshold : ℚ := 7 / 10
  consistency_threshold : ℚ := 8 / 10
  min_confidence_score : ℚ := 6 / 10
  hybrid_search_alpha : ℚ := 7 / 10
deriving Repr

/-- EvaluationPipeline._determine_status (evaluator.py, lines 160-188).
Python `if flags:` tests non-emptiness of the flag list. -/
def determineStatus (s : Settings) (hallucination_score consistency_score confidence_score : ℚ)
    (flags : List String) : EvaluationStatus :=
  if hallucination_score > 8 / 10 then .failed
  else if flags.length ≥ 3 then .failed
  else if flags ≠ [] then .flagged
  else if hallucination_score ≤ s.hallucination_threshold ∧
      consistency_score ≥ s.consistency_threshold ∧
      confidence_score ≥ s.min_confidence_score then .passed
  else .flagged

/-- C1: the final verdict follows the stated precedence order: a hallucination
score above 0.8 forces FAILED regardless of the other scores or the flag
count; otherwise three or more flags force FAILED; otherwise any flag forces
FLAGGED; otherwise, with no flags, the verdict is PASSED exactly when the
hallucination score is at most the hallucination threshold, the consistency
score is at least the consistency threshold and the confidence score is at
least the minimum confidence threshold, and FLAGGED otherwise. -/
theorem determineStatus_precedence (s : Settings) (h c conf : ℚ) (flags : List String) :
    (h > 8 / 10 → determineStatus s h c conf flags = .failed) ∧
    (h ≤ 8 / 10 → 3 ≤ flags.length → determineStatus s h c conf flags = .failed) ∧
    (h ≤ 8 / 10 → flags.length < 3 → flags ≠ [] →
      determineStatus s h c conf flags = .flagged) ∧
    (h ≤ 8 / 10 → flags = [] →
      (h ≤ s.hallucination_threshold ∧ c ≥ s.consistency_threshold ∧
        conf ≥ s.min_confidence_score) →
      determineStatus s h c conf flags = .passed) ∧
    (h ≤ 8 / 10 → flags = [] →
      ¬(h ≤ s.hallucination_threshold ∧ c ≥ s.consistency_threshold ∧
        conf ≥ s.min_confidence_score) →
      determineStatus s h c conf flags = .flagged) := by
  refine ⟨?_, ?_, ?_, ?_, ?_⟩
  · intro hh
    simp [determineStatus, hh]
  · intro hh hf
    have hnot : ¬ h > 8 / 10 := not_lt.2 hh
    simp [determineStatus, hnot, hf]
  · intro hh hlt hne
    have hnot : ¬ h > 8 / 10 := not_lt.2 hh
    have hgenot : ¬ flags.length ≥ 3 := not_le.2 hlt
    simp [determineStatus, hnot, hgenot, hne]
  · intro hh hfe hth
    have hnot : ¬ h > 8 / 10 := not_lt.2 hh
    simp [determineStatus, hnot, hfe, hth]
  · intro hh hfe hth
    have hnot : ¬ h > 8 / 10 := not_lt.2 hh
    simp [determineStatus, hnot, hfe, hth]

/-- Concrete instantiation of the verdict precedence: a hallucination score of
0.9 fails despite perfect consistency and confidence, and a clean 0.5 / 1 / 1
run with no flags passes. -/
theorem determineStatus_precedence_w :
    determineStatus {} (9 / 10) 1 1 [] = .failed ∧
    determineStatus {} (1 / 2) 1 1 [] = .passed := by
  constructor
  · exact (determineStatus_precedence {} (9 / 10) 1 1 []).1 (by norm_num)
  · exact (determineStatus_precedence {} (1 / 2) 1 1 []).2.2.2.1 (by norm_num) rfl
      ⟨by norm_num, by norm_num, by norm_num⟩

/-! ### Orchestrator regeneration cycle (src/orchestration/workflow.py) -/

/-- models.schemas.EvaluationResult, the record the evaluation pipeline
returns to the orchestrator. -/
structure EvaluationResult where
  hallucination_score : ℚ
  factual_grounding_score : ℚ
  semantic_consistency_score : ℚ
  confidence_score : ℚ
  status : EvaluationStatus
  flags : List String := []
  evaluation_reasoning : String := ""

/-- workflow.MAX_REGENERATION_ATTEMPTS (workflow.py, line 54). -/
def MAX_REGENERATION_ATTEMPTS : ℕ := 2

/-- The fields of workflow.WorkflowState the generate / evaluate / regenerate
cycle reads or writes. -/
structure WorkflowState where
  response_text : String := ""
  evaluation : Option EvaluationResult := none
  generation_attempts : ℕ := 0

/-- QueryOrchestrator._should_regenerate (workflow.py, lines 301-314): Python
`state.evaluation and ...` is false when the evaluation is absent. -/
def shouldRegenerate (state : WorkflowState) : Bool :=
  match state.evaluation with
  | some ev =>
      decide (ev.hallucination_score > 8 / 10) &&
      decide (state.generation_attempts < MAX_REGENERATION_ATTEMPTS)
  | none => false

/-- QueryOrchestrator._generate_node, restricted to the state fields of the
cycle: it increments the attempt counter and overwrites the response text.
`gen n` is the language model's output on attempt `n`. -/
def generateNode (gen : ℕ → String) (s : WorkflowState) : WorkflowState :=
  { s with generation_attempts := s.generation_attempts + 1,
           response_text := gen (s.generation_attempts + 1) }

/-- QueryOrchestrator._evaluate_node: stores the evaluation pipeline's result
for the current attempt.  `evalOut n txt` is the pipeline's result for
response `txt` on attempt `n`. -/
def evaluateNode (evalOut : ℕ → String → EvaluationResult) (s : WorkflowState) : WorkflowState :=
  { s with evaluation := some (evalOut s.generation_attempts s.response_text) }

/-- The generate → evaluate → (regenerate | continue) cycle of the compiled
graph (workflow.py, lines 126-141), on the evaluation path.  Returns the
state handed to the guardrails node together with the number of times the
generate node ran.  Termination is structural: the regenerate edge requires
the attempt counter to be below MAX_REGENERATION_ATTEMPTS and every pass
through generate increments it. -/
def generateEvaluateLoop (gen : ℕ → String) (evalOut : ℕ → String → EvaluationResult)
    (s : WorkflowState) : WorkflowState × ℕ :=
  if h : shouldRegenerate (evaluateNode evalOut (generateNode gen s)) then
    ((generateEvaluateLoop gen evalOut (evaluateNode evalOut (generateNode gen s))).1,
     (generateEvaluateLoop gen evalOut (evaluateNode evalOut (generateNode gen s))).2 + 1)
  else (evaluateNode evalOut (generateNode gen s), 1)
termination_by MAX_REGENERATION_ATTEMPTS - s.generation_attempts
decreasing_by
  all_goals
    simp only [shouldRegenerate, evaluateNode, generateNode] at h ⊢
    simp only [Bool.and_eq_true, decide_eq_true_eq] at h
    omega

/-- C2: in every orchestrator execution the generate stage runs at most
MAX_REGENERATION_ATTEMPTS = 2 times; the regenerate edge is taken exactly
when the stored evaluation's hallucination score exceeds 0.8 and the attempt
counter is strictly below 2; and the state that proceeds to guardrails
carries the last attempt's response together with its evaluation, so the
cycle terminates. -/
theorem workflow_regeneration_bound (gen : ℕ → String)
    (evalOut : ℕ → String → EvaluationResult) (s0 : WorkflowState)
    (hs0 : s0.generation_attempts = 0) :
    (generateEvaluateLoop gen evalOut s0).2 ≤ MAX_REGENERATION_ATTEMPTS ∧
    (∀ s ev, s.evaluation = some ev →
      (shouldRegenerate s = true ↔
        ev.hallucination_score > 8 / 10 ∧
        s.generation_attempts < MAX_REGENERATION_ATTEMPTS)) ∧
    (generateEvaluateLoop gen evalOut s0).1.generation_attempts =
      (generateEvaluateLoop gen evalOut s0).2 ∧
    (generateEvaluateLoop gen evalOut s0).1.response_text =
      gen (generateEvaluateLoop gen evalOut s0).2 ∧
    (generateEvaluateLoop gen evalOut s0).1.evaluation =
      some (evalOut (generateEvaluateLoop gen evalOut s0).2
        (gen (generateEvaluateLoop gen evalOut s0).2)) := by
  have hedge : ∀ s (ev : EvaluationResult), s.evaluation = some ev →
      (shouldRegenerate s = true ↔
        ev.hallucination_score > 8 / 10 ∧
        s.generation_attempts < MAX_REGENERATION_ATTEMPTS) := by
    intro s ev hev
    obtain ⟨rt, evl, ga⟩ := s
    simp only at hev
    subst hev
    simp [shouldRegenerate]
  -- unfold the loop once from the initial state
  rw [generateEvaluateLoop.eq_def]
  set s2 := evaluateNode evalOut (generateNode gen s0) with hs2
  have hga2 : s2.generation_attempts = 1 := by
    simp [hs2, evaluateNode, generateNode, hs0]
  by_cases hre : shouldRegenerate s2
  · -- one regeneration: unfold the inner call, whose guard is closed by the bound
    rw [dif_pos hre, generateEvaluateLoop.eq_def]
    set s4 := evaluateNode evalOut (generateNode gen s2) with hs4
    have hga4 : s4.generation_attempts = 2 := by
      simp [hs4, evaluateNode, generateNode, hga2]
    have hre4 : ¬ shouldRegenerate s4 = true := by
      simp only [shouldRegenerate, Bool.and_eq_true, decide_eq_true_eq]
      cases hev : s4.evaluation with
      | none => simp
      | some ev => simp [hga4, MAX_REGENERATION_ATTEMPTS]
    rw [dif_neg hre4]
    refine ⟨by norm_num [MAX_REGENERATION_ATTEMPTS], hedge, ?_, ?_, ?_⟩
    · simpa using hga4
    · simp [hs4, evaluateNode, generateNode, hga2]
    · simp [hs4, evaluateNode, generateNode, hga2]
  · rw [dif_neg hre]
    refine ⟨by norm_num [MAX_REGENERATION_ATTEMPTS], hedge, ?_, ?_, ?_⟩
    · simpa using hga2
    · simp [hs2, evaluateNode, generateNode, hs0]
    · simp [hs2, evaluateNode, generateNode, hs0]

/-- Concrete instantiation of the regeneration bound: an evaluation oracle
that always reports hallucination score 1 (the worst case) still drives the
generate stage at most twice, and the final state carries the second
attempt's result. -/
theorem workflow_regeneration_bound_w :
    (generateEvaluateLoop (fun _ => "answer")
      (fun _ _ => { hallucination_score := 1, factual_grounding_score := 0,
                    semantic_consistency_score := 1, confidence_score := 0,
                    status := .failed }) {}).2 ≤ MAX_REGENERATION_ATTEMPTS ∧
    (generateEvaluateLoop (fun _ => "answer")
      (fun _ _ => { hallucination_score := 1, factual_grounding_score := 0,
                    semantic_consistency_score := 1, confidence_score := 0,
                    status := .failed }) {}).1.generation_attempts =
      (generateEvaluateLoop (fun _ => "answer")
        (fun _ _ => { hallucination_score := 1, factual_grounding_score := 0,
                      semantic_consistency_score := 1, confidence_score := 0,
                      status := .failed }) {}).2 := by
  have h := workflow_regeneration_bound (fun _ => "answer")
    (fun _ _ => { hallucination_score := 1, factual_grounding_score := 0,
                  semantic_consistency_score := 1, confidence_score := 0,
                  status := .failed }) {} rfl
  exact ⟨h.1, h.2.2.1⟩

/-! ### Hallucination detection (src/evaluation/hallucination_detector.py) -/

/-- Parsed JSON values, the codomain of Python's `json.loads`. -/
inductive Json where
  | null
  | bool (b : Bool)
  | num (q : ℚ)
  | str (s : String)
  | arr (items : List Json)
  | obj (entries : List (String × Json))

/-- The Python exception classes the detector's code paths can raise or
catch.  `json.JSONDecodeError` is the failure of `json.loads` itself. -/
inductive PyErr where
  | jsonDecodeError
  | keyError
  | typeError
  | valueError
  | attributeError
deriving DecidableEq, Repr

/-- Python `parsed.get(key, default)`: defined only on dicts; any other
value raises AttributeError.  `json.loads` keeps the last of duplicate
keys, hence the reversed lookup. -/
def Json.get (j : Json) (key : String) (dflt : Json) : Except PyErr Json :=
  match j with
  | .obj entries => .ok ((entries.reverse.lookup key).getD dflt)
  | _ => .error .attributeError

/-- Digit run to a natural number. -/
def digitsVal (ds : List Char) : ℕ :=
  ds.foldl (fun acc d => acc * 10 + (d.toNat - 48)) 0

/-- Python `float(s)` on a string: an optional sign and a decimal literal
(exponent forms are not modelled; no claim involves them).  `none` models
ValueError. -/
def parseDecimal (s : PyStr) : Option ℚ :=
  let t := pyStrip s
  let signed : ℚ × PyStr :=
    match t with
    | '-' :: r => (-1, r)
    | '+' :: r => (1, r)
    | r => (1, r)
  let intPart := signed.2.takeWhile Char.isDigit
  let rest := signed.2.dropWhile Char.isDigit
  match rest with
  | [] => if intPart = [] then none else some (signed.1 * digitsVal intPart)
  | '.' :: frac =>
      if frac.all Char.isDigit ∧ intPart ++ frac ≠ [] then
        some (signed.1 * ((digitsVal intPart : ℚ) + (digitsVal frac : ℚ) / 10 ^ frac.length))
      else none
  | _ => none

/-- Python `float(x)` on a JSON value: numbers and booleans convert, numeric
strings parse, non-numeric strings raise ValueError, and None / lists /
dicts raise TypeError. -/
def pyFloat (j : Json) : Except PyErr ℚ :=
  match j with
  | .num q => .ok q
  | .bool b => .ok (if b then 1 else 0)
  | .str s =>
      match parseDecimal s.data with
      | some q => .ok q
      | none => .error .valueError
  | _ => .error .typeError

/-- hallucination_detector.ClaimVerification.  The Python dataclass does not
enforce field types, so fields hold whatever JSON the judge returned. -/
structure ClaimVerification where
  claim : Json
  verdict : Json
  evidence : Json
  source_ref : Json

/-- One entry of the judge's claim list: `c.get(...)` with string defaults;
a non-dict entry raises AttributeError. -/
def extractClaim (c : Json) : Except PyErr ClaimVerification := do
  let cl ← c.get "claim" (.str "")
  let vd ← c.get "verdict" (.str "UNSUPPORTED")
  let ev ← c.get "evidence" (.str "")
  let sr ← c.get "source_ref" (.str "")
  return { claim := cl, verdict := vd, evidence := ev, source_ref := sr }

/-- Python `for c in parsed.get("claims", [])`: lists iterate their items; a
string iterates its characters (each a one-character string, whose `.get`
raises AttributeError); a dict iterates its keys (strings, same failure);
numbers, booleans and None are not iterable and raise TypeError. -/
def iterClaims (j : Json) : Except PyErr (List ClaimVerification) :=
  match j with
  | .arr items => items.mapM extractClaim
  | .str s => if s.data = [] then .ok [] else .error .attributeError
  | .obj [] => .ok []
  | .obj (_ :: _) => .error .attributeError
  | _ => .error .typeError

/-- hallucination_detector.HallucinationResult.  The judge's reasoning field
is stored unchecked, so it stays a JSON value in the model. -/
structure HallucinationResult where
  hallucination_score : ℚ
  factual_grounding_score : ℚ
  claims : List ClaimVerification := []
  entity_overlap_score : ℚ := 0
  semantic_similarity_score : ℚ := 0
  reasoning : Json := .str ""

/-- The body of the `try` block of
HallucinationDetector._llm_judge_verification (lines 139-163), applied to
the outcome of `json.loads` on the judge's text: field extraction in the
evaluation order of the Python source (claims list first, then the two
float conversions, then reasoning). -/
def llmJudgeParse (loads : Except PyErr Json) : Except PyErr HallucinationResult := do
  let parsed ← loads
  let claimsJson ← parsed.get "claims" (.arr [])
  let claims ← iterClaims claimsJson
  let h ← pyFloat (← parsed.get "hallucination_score" (.num (1 / 2)))
  let g ← pyFloat (← parsed.get "factual_grounding_score" (.num (1 / 2)))
  let reasoning ← parsed.get "reasoning" (.str "")
  return { hallucination_score := h, factual_grounding_score := g, claims := claims,
           reasoning := reasoning }

/-- The neutral result of the `except` clause of _llm_judge_verification. -/
def neutralJudgeResult : HallucinationResult :=
  { hallucination_score := 1 / 2, factual_grounding_score := 1 / 2,
    reasoning := .str "LLM judge evaluation failed to parse" }

/-- HallucinationDetector._llm_judge_verification (lines 122-171): the
`except` clause catches exactly json.JSONDecodeError, KeyError and
TypeError and returns the neutral result; every other exception
propagates. -/
def llmJudgeVerification (loads : Except PyErr Json) : Except PyErr HallucinationResult :=
  match llmJudgeParse loads with
  | .ok r => .ok r
  | .error e =>
      if e = .jsonDecodeError ∨ e = .keyError ∨ e = .typeError then .ok neutralJudgeResult
      else .error e

/-- HallucinationDetector.detect (lines 63-120), as a function of its three
signals: the judge result (from _llm_judge_verification), the entity
overlap score and the semantic similarity score.  The parameter `k` of the
combination is fixed by the source: weights 0.6 / 0.2 / 0.2, clamp to
[0, 1], round to 4 decimals. -/
def detect (judge : HallucinationResult) (entity_score semantic_score : ℚ) :
    HallucinationResult :=
  let combined_hallucination :=
    6 / 10 * judge.hallucination_score + 2 / 10 * (1 - entity_score) +
      2 / 10 * (1 - semantic_score)
  let combined_grounding :=
    6 / 10 * judge.factual_grounding_score + 2 / 10 * entity_score +
      2 / 10 * semantic_score
  { hallucination_score := round4 (clamp01 combined_hallucination),
    factual_grounding_score := round4 (clamp01 combined_grounding),
    claims := judge.claims,
    entity_overlap_score := round4 entity_score,
    semantic_similarity_score := round4 semantic_score,
    reasoning := judge.reasoning }

/-- C3: the combined hallucination score is 0.6 × judge hallucination +
0.2 × (1 − entity overlap) + 0.2 × (1 − semantic similarity), the combined
grounding score is 0.6 × judge grounding + 0.2 × entity overlap +
0.2 × semantic similarity, and each is clamped to [0, 1] and rounded to 4
decimal places before being returned, hence lies in [0, 1]. -/
theorem detect_combination (judge : HallucinationResult) (e s : ℚ) :
    (detect judge e s).hallucination_score =
      round4 (clamp01 (6 / 10 * judge.hallucination_score + 2 / 10 * (1 - e) +
        2 / 10 * (1 - s))) ∧
    (detect judge e s).factual_grounding_score =
      round4 (clamp01 (6 / 10 * judge.factual_grounding_score + 2 / 10 * e +
        2 / 10 * s)) ∧
    0 ≤ (detect judge e s).hallucination_score ∧
    (detect judge e s).hallucination_score ≤ 1 ∧
    0 ≤ (detect judge e s).factual_grounding_score ∧
    (detect judge e s).factual_grounding_score ≤ 1 := by
  refine ⟨rfl, rfl, ?_, ?_, ?_, ?_⟩
  · exact (round4_clamp01_mem _).1
  · exact (round4_clamp01_mem _).2
  · exact (round4_clamp01_mem _).1
  · exact (round4_clamp01_mem _).2

/-- C5 counterexample: two judge outputs that cannot be parsed into the
expected structure yet propagate an exception instead of yielding the
neutral result — the valid-JSON text "[]" (a list has no `.get`, so
AttributeError escapes the except clause), and a JSON object whose
hallucination_score is the non-numeric string "high" (float() raises
ValueError, which the except clause does not catch). -/
theorem llmJudge_not_always_neutral :
    llmJudgeVerification (.ok (Json.arr [])) = .error .attributeError ∧
    llmJudgeVerification
      (.ok (Json.obj [("hallucination_score", Json.str "high")])) =
      .error .valueError := by
  constructor <;> rfl

/-- C5 amended: when `json.loads` itself fails (JSONDecodeError), and more
generally whenever field extraction raises KeyError or TypeError, the
LLM-judge verification step returns the neutral result with hallucination
score 0.5 and factual grounding score 0.5 instead of raising. -/
theorem llmJudge_neutral_on_parse_failure (loads : Except PyErr Json) :
    (loads = .error .jsonDecodeError →
      llmJudgeVerification loads = .ok neutralJudgeResult) ∧
    (∀ e, llmJudgeParse loads = .error e →
      e = .jsonDecodeError ∨ e = .keyError ∨ e = .typeError →
      llmJudgeVerification loads = .ok neutralJudgeResult) ∧
    neutralJudgeResult.hallucination_score = 1 / 2 ∧
    neutralJudgeResult.factual_grounding_score = 1 / 2 := by
  refine ⟨?_, ?_, rfl, rfl⟩
  · intro hl
    subst hl
    rfl
  · intro e he hc
    unfold llmJudgeVerification
    rw [he]
    simp only [if_pos hc]

/-- Concrete instantiation: a judge reply that is not valid JSON yields the
neutral 0.5 / 0.5 result. -/
theorem llmJudge_neutral_on_parse_failure_w :
    llmJudgeVerification (.error .jsonDecodeError) = .ok neutralJudgeResult :=
  (llmJudge_neutral_on_parse_failure (.error .jsonDecodeError)).1 rfl

/-! ### Consistency scoring (src/evaluation/consistency_scorer.py) -/

/-- consistency_scorer.ConsistencyResult. -/
structure ConsistencyResult where
  consistency_score : ℚ
  num_samples : ℕ
  discrepancies : List String
  reasoning : String

/-- ConsistencyScorer._compare_pair (lines 114-139), as a function of the
parsed judge reply for the pair: `some (score, discrepancies)` when the
pairwise judge call parsed, `none` when it raised one of the caught
json.JSONDecodeError / KeyError / TypeError, in which case the pair is
downgraded to score 0.5 with a parse-error note. -/
def comparePair (parsed : Option (ℚ × List String)) : ℚ × List String :=
  match parsed with
  | some r => r
  | none => (1 / 2, ["Parse error"])

/-- ConsistencyScorer.score (lines 46-112).  Each requested sample is
`none` when its generation raised (the sample is logged and dropped) and
`some o` when generation succeeded, with `o` the parsed outcome of the
pairwise comparison against the original response. -/
def consistencyScore (samples : List (Option (Option (ℚ × List String)))) :
    ConsistencyResult :=
  let alternative_responses := samples.filterMap id
  if alternative_responses = [] then
    { consistency_score := 1 / 2, num_samples := 0,
      discrepancies := ["Failed to generate comparison samples"],
      reasoning := "Could not generate alternative responses for comparison" }
  else
    let pair_results := alternative_responses.map comparePair
    let pairwise_scores := pair_results.map Prod.fst
    let all_discrepancies := (pair_results.map Prod.snd).flatten
    let avg_score := pairwise_scores.sum / (pairwise_scores.length : ℚ)
    { consistency_score := round4 avg_score,
      num_samples := alternative_responses.length,
      discrepancies := all_discrepancies,
      reasoning := "Compared with alternative responses" }

/-- C6: if every requested sample generation fails the scorer returns
exactly 0.5 with an explicit discrepancy note and num_samples = 0;
otherwise the returned score is the arithmetic mean of the pairwise
comparison scores rounded to 4 decimals, where a parse failure on an
individual pairwise judge call contributes 0.5 for that pair only, and the
discrepancy lists of all pairs are concatenated. -/
theorem consistencyScore_spec (samples : List (Option (Option (ℚ × List String)))) :
    (samples.filterMap id = [] →
      (consistencyScore samples).consistency_score = 1 / 2 ∧
      (consistencyScore samples).num_samples = 0 ∧
      (consistencyScore samples).discrepancies =
        ["Failed to generate comparison samples"]) ∧
    (samples.filterMap id ≠ [] →
      (consistencyScore samples).consistency_score =
        round4 ((((samples.filterMap id).map comparePair).map Prod.fst).sum /
          (((samples.filterMap id).map comparePair).map Prod.fst).length) ∧
      (consistencyScore samples).num_samples = (samples.filterMap id).length ∧
      (consistencyScore samples).discrepancies =
        (((samples.filterMap id).map comparePair).map Prod.snd).flatten) ∧
    comparePair none = (1 / 2, ["Parse error"]) ∧
    (∀ r, comparePair (some r) = r) := by
  refine ⟨?_, ?_, rfl, fun _ => rfl⟩
  · intro hempty
    simp [consistencyScore, hempty]
  · intro hne
    simp only [consistencyScore]
    rw [if_neg hne]
    exact ⟨rfl, rfl, rfl⟩

/-- Concrete instantiation: two failed generations give exactly 0.5 with
num_samples 0; one parsed pair at 0.9 and one parse failure average to
(0.9 + 0.5) / 2 = 0.7. -/
theorem consistencyScore_spec_w :
    (consistencyScore [none, none]).consistency_score = 1 / 2 ∧
    (consistencyScore [some (some (9 / 10, [])), some none]).consistency_score =
      7 / 10 ∧
    (consistencyScore [some (some (9 / 10, [])), some none]).num_samples = 2 := by
  have h1 := (consistencyScore_spec [none, none]).1 (by decide)
  have h2 := (consistencyScore_spec [some (some (9 / 10, [])), some none]).2.1
    (by simp)
  refine ⟨h1.1, ?_, h2.2.1⟩
  rw [h2.1]
  have hlist :
      (((List.filterMap id [some (some ((9 : ℚ) / 10, ([] : List String))), some none]).map
        comparePair).map Prod.fst) = [9 / 10, 1 / 2] := rfl
  rw [hlist, round4_eq_intCast _ 7000 (by norm_num [List.sum_cons, List.sum_nil])]
  norm_num

/-! ### Confidence scoring (backend/src/evaluation/confidence_scorer.py) -/

/-- Python `str.lower()`. -/
def pyLower (s : PyStr) : PyStr := s.map Char.toLower

/-- Python `str.split()` with no separator: split on whitespace runs,
dropping empty pieces. -/
def pyWords (s : PyStr) : List PyStr :=
  (List.splitOnP Char.isWhitespace s).filter (fun w => w ≠ [])

/-- Python `sub in hay` on strings: contiguous substring containment. -/
def pyContains (hay sub : PyStr) : Bool := decide (sub <:+: hay)

/-- Python `" ".join(xs)`. -/
def pySpaceJoin (xs : List PyStr) : PyStr := List.intercalate [' '] xs

/-- Literal head match: does `s` start with `pat`? -/
def startsWith : PyStr → PyStr → Bool
  | [], _ => true
  | _ :: _, [] => false
  | p :: ps, c :: cs => p = c && startsWith ps cs

/-- Left-to-right non-overlapping scan, the counting discipline of
`len(re.findall(pattern, text))`: `matchAt` reports the length of a match
anchored at the current position; on a match the scan resumes after it,
otherwise one character later.  Fuel is the text length (every step
consumes at least one character). -/
def countMatchesAux (matchAt : PyStr → Option ℕ) : ℕ → PyStr → ℕ
  | 0, _ => 0
  | _ + 1, [] => 0
  | fuel + 1, c :: rest =>
      match matchAt (c :: rest) with
      | some len => 1 + countMatchesAux matchAt fuel ((c :: rest).drop len)
      | none => countMatchesAux matchAt fuel rest

def countMatches (matchAt : PyStr → Option ℕ) (s : PyStr) : ℕ :=
  countMatchesAux matchAt s.length s

/-- Anchored match for the citation-marker pattern: literal "[Source ",
one or more digits, then "]". -/
def matchSourceMarker (s : PyStr) : Option ℕ :=
  if startsWith "[Source ".data s then
    let rest := s.drop 8
    let ds := rest.takeWhile Char.isDigit
    match ds, rest.drop ds.length with
    | _ :: _, ']' :: _ => some (8 + ds.length + 1)
    | _, _ => none
  else none

/-- Anchored match for the dollar-amount pattern: a dollar sign followed by
one or more digits or commas (greedy). -/
def matchDollar (s : PyStr) : Option ℕ :=
  match s with
  | '$' :: rest =>
      let run := rest.takeWhile (fun c => c.isDigit || c = ',')
      if run = [] then none else some (1 + run.length)
  | _ => none

/-- Anchored match for the percentage pattern: one or more digits, an
optional dot with following digits, then a percent sign.  (A shortened
digit run cannot rescue a failed match, so the greedy reading is exact.) -/
def matchPercent (s : PyStr) : Option ℕ :=
  let d1 := s.takeWhile Char.isDigit
  if d1 = [] then none
  else
    match s.drop d1.length with
    | '%' :: _ => some (d1.length + 1)
    | '.' :: rest2 =>
        let d2 := rest2.takeWhile Char.isDigit
        match rest2.drop d2.length with
        | '%' :: _ => some (d1.length + 1 + d2.length + 1)
        | _ => none
    | _ => none

/-- Anchored match for the time-period pattern: "Q1".."Q4" or "FY", optional
whitespace, then four digits. -/
def matchPeriodToken (s : PyStr) : Option ℕ :=
  let headLen : Option ℕ :=
    match s with
    | 'Q' :: c :: _ =>
        if c = '1' ∨ c = '2' ∨ c = '3' ∨ c = '4' then some 2 else none
    | 'F' :: 'Y' :: _ => some 2
    | _ => none
  match headLen with
  | none => none
  | some hl =>
      let rest := s.drop hl
      let ws := rest.takeWhile Char.isWhitespace
      let ds := (rest.drop ws.length).takeWhile Char.isDigit
      if 4 ≤ ds.length then some (hl + ws.length + 4) else none

/-- The verb alternation of the quantified-change pattern. -/
def matchChangeVerb (s : PyStr) : Option ℕ :=
  if startsWith "increased".data s then some 9
  else if startsWith "decreased".data s then some 9
  else if startsWith "grew".data s then some 4
  else if startsWith "declined".data s then some 8
  else none

/-- Anchored match for the quantified-change pattern: a change verb, one or
more whitespace characters, an optional "by" plus whitespace, then a
digit. -/
def matchChangePhrase (s : PyStr) : Option ℕ :=
  match matchChangeVerb s with
  | none => none
  | some wl =>
      let rest := s.drop wl
      let ws := rest.takeWhile Char.isWhitespace
      if ws = [] then none
      else
        let after := rest.drop ws.length
        let byLen : Option ℕ :=
          if startsWith "by".data after then
            let ws2 := (after.drop 2).takeWhile Char.isWhitespace
            if ws2 = [] then none
            else
              match (after.drop 2).drop ws2.length with
              | d :: _ => if d.isDigit then some (2 + ws2.length + 1) else none
              | [] => none
          else none
        match byLen with
        | some n => some (wl + ws.length + n)
        | none =>
            match after with
            | d :: _ => if d.isDigit then some (wl + ws.length + 1) else none
            | [] => none

/-- confidence_scorer.HEDGING_PHRASES. -/
def HEDGING_PHRASES : List PyStr :=
  (["it is possible that", "may have", "could potentially", "it appears that",
    "it seems", "approximately", "roughly", "unclear", "not enough information",
    "limited data", "cannot determine", "uncertain", "speculative"] :
      List String).map String.data

/-- models.schemas.Citation. -/
structure Citation where
  chunk_id : String
  source_document : PyStr := []
  section' : String := ""
  relevance_score : ℚ
  text_excerpt : PyStr := []
deriving DecidableEq

/-- confidence_scorer.ConfidenceResult (the breakdown dict repeats the
stored component fields plus the two external factors). -/
structure ConfidenceResult where
  confidence_score : ℚ
  source_coverage_score : ℚ
  citation_density_score : ℚ
  specificity_score : ℚ
  hedging_penalty : ℚ
  retrieval_relevance_score : ℚ
  breakdown : List (String × ℚ)

/-- ConfidenceScorer._score_source_coverage (lines 128-141): the fraction of
distinct non-stopword query words that occur as substrings of the
concatenated lower-cased sources. -/
def scoreSourceCoverage (query : PyStr) (source_chunks : List PyStr) : ℚ :=
  if source_chunks = [] then 0
  else
    let query_terms :=
      ((pyWords (pyLower query)).dedup).filter (fun t =>
        ¬ t ∈ (["what", "how", "why", "when", "is", "the", "a", "an", "of",
                "in", "for"] : List String).map String.data)
    if query_terms = [] then 1 / 2
    else
      let combined_sources := pyLower (pySpaceJoin source_chunks)
      let matched := (query_terms.filter (fun t => pyContains combined_sources t)).length
      (matched : ℚ) / query_terms.length

/-- ConfidenceScorer._score_citation_density (lines 143-153). -/
def scoreCitationDensity (response_text : PyStr) : ℚ :=
  let citation_count := countMatches matchSourceMarker response_text
  let word_count := (pyWords response_text).length
  if word_count = 0 then 0
  else
    let expected_citations := max 1 ((word_count : ℚ) / 100)
    min ((citation_count : ℚ) / expected_citations) 1

/-- ConfidenceScorer._score_specificity (lines 155-163): total match count
of the five HIGH_CONFIDENCE_SIGNALS patterns, normalized by 5, capped. -/
def scoreSpecificity (response_text : PyStr) : ℚ :=
  let signal_count :=
    countMatches matchSourceMarker response_text +
    countMatches matchDollar response_text +
    countMatches matchPercent response_text +
    countMatches matchPeriodToken response_text +
    countMatches matchChangePhrase response_text
  min ((signal_count : ℚ) / 5) 1

/-- ConfidenceScorer._score_hedging_penalty (lines 165-171). -/
def scoreHedgingPenalty (response_text : PyStr) : ℚ :=
  let text_lower := pyLower response_text
  let hedge_count := (HEDGING_PHRASES.filter (fun p => pyContains text_lower p)).length
  min ((hedge_count : ℚ) / 3) 1

/-- ConfidenceScorer._score_retrieval_relevance (lines 173-178). -/
def scoreRetrievalRelevance (citations : List Citation) : ℚ :=
  if citations = [] then 0
  else clamp01 ((citations.map Citation.relevance_score).sum / (citations.length : ℚ))

/-- ConfidenceScorer.score (lines 61-126): the composite weighted sum over
the five local components and the two externally supplied factors, clamped
and rounded; all stored scores are rounded to 4 decimals. -/
def confidenceScore (response_text query : PyStr) (citations : List Citation)
    (source_chunks : List PyStr) (hallucination_score consistency_score : ℚ) :
    ConfidenceResult :=
  let source_coverage := scoreSourceCoverage query source_chunks
  let citation_density := scoreCitationDensity response_text
  let specificity := scoreSpecificity response_text
  let hedging := scoreHedgingPenalty response_text
  let retrieval_relevance := scoreRetrievalRelevance citations
  let composite :=
    20 / 100 * source_coverage + 15 / 100 * citation_density +
    10 / 100 * specificity + 15 / 100 * (1 - hedging) +
    10 / 100 * retrieval_relevance + 15 / 100 * (1 - hallucination_score) +
    15 / 100 * consistency_score
  { confidence_score := round4 (clamp01 composite),
    source_coverage_score := round4 source_coverage,
    citation_density_score := round4 citation_density,
    specificity_score := round4 specificity,
    hedging_penalty := round4 hedging,
    retrieval_relevance_score := round4 retrieval_relevance,
    breakdown :=
      [("source_coverage", round4 source_coverage),
       ("citation_density", round4 citation_density),
       ("specificity", round4 specificity),
       ("hedging_penalty", round4 hedging),
       ("retrieval_relevance", round4 retrieval_relevance),
       ("hallucination_factor", round4 (1 - hallucination_score)),
       ("consistency_factor", round4 consistency_score)] }

theorem scoreSourceCoverage_mem (query : PyStr) (chunks : List PyStr) :
    0 ≤ scoreSourceCoverage query chunks ∧ scoreSourceCoverage query chunks ≤ 1 := by
  simp only [scoreSourceCoverage]
  split
  · norm_num
  split
  · norm_num
  rename_i hq
  have hlen : 0 < (((pyWords (pyLower query)).dedup).filter (fun t =>
      ¬ t ∈ (["what", "how", "why", "when", "is", "the", "a", "an", "of",
              "in", "for"] : List String).map String.data)).length := by
    cases hl : (((pyWords (pyLower query)).dedup).filter (fun t =>
        ¬ t ∈ (["what", "how", "why", "when", "is", "the", "a", "an", "of",
                "in", "for"] : List String).map String.data)) with
    | nil => exact absurd hl hq
    | cons a l => simp [hl]
  have hlenq : (0 : ℚ) < (((pyWords (pyLower query)).dedup).filter (fun t =>
      ¬ t ∈ (["what", "how", "why", "when", "is", "the", "a", "an", "of",
              "in", "for"] : List String).map String.data)).length := by
    exact_mod_cast hlen
  constructor
  · positivity
  · rw [div_le_one hlenq]
    exact_mod_cast List.length_filter_le _ _

theorem scoreCitationDensity_mem (r : PyStr) :
    0 ≤ scoreCitationDensity r ∧ scoreCitationDensity r ≤ 1 := by
  simp only [scoreCitationDensity]
  split
  · norm_num
  constructor
  · refine le_min ?_ zero_le_one
    have h1 : (0 : ℚ) < max 1 (((pyWords r).length : ℚ) / 100) :=
      lt_of_lt_of_le zero_lt_one (le_max_left _ _)
    positivity
  · exact min_le_right _ _

theorem scoreSpecificity_mem (r : PyStr) :
    0 ≤ scoreSpecificity r ∧ scoreSpecificity r ≤ 1 := by
  simp only [scoreSpecificity]
  constructor
  · refine le_min ?_ zero_le_one
    positivity
  · exact min_le_right _ _

theorem scoreHedgingPenalty_mem (r : PyStr) :
    0 ≤ scoreHedgingPenalty r ∧ scoreHedgingPenalty r ≤ 1 := by
  simp only [scoreHedgingPenalty]
  constructor
  · refine le_min ?_ zero_le_one
    positivity
  · exact min_le_right _ _

theorem scoreRetrievalRelevance_mem (cs : List Citation) :
    0 ≤ scoreRetrievalRelevance cs ∧ scoreRetrievalRelevance cs ≤ 1 := by
  simp only [scoreRetrievalRelevance]
  split
  · norm_num
  · exact ⟨clamp01_nonneg _, clamp01_le_one _⟩

/-- C4: for every input (any response, query, citation list, source chunks
and arbitrary real hallucination and consistency scores), the returned
confidence score is the clamped, 4-decimal-rounded weighted sum
0.20·source_coverage + 0.15·citation_density + 0.10·specificity +
0.15·(1−hedging) + 0.10·retrieval_relevance + 0.15·(1−hallucination) +
0.15·consistency, whose weights sum to 1; it lies in [0, 1], and each of
the five locally computed component scores lies in [0, 1]. -/
theorem confidenceScore_spec (response query : PyStr) (citations : List Citation)
    (chunks : List PyStr) (h c : ℚ) :
    (confidenceScore response query citations chunks h c).confidence_score =
      round4 (clamp01 (20 / 100 * scoreSourceCoverage query chunks +
        15 / 100 * scoreCitationDensity response +
        10 / 100 * scoreSpecificity response +
        15 / 100 * (1 - scoreHedgingPenalty response) +
        10 / 100 * scoreRetrievalRelevance citations +
        15 / 100 * (1 - h) + 15 / 100 * c)) ∧
    (20 / 100 + 15 / 100 + 10 / 100 + 15 / 100 + 10 / 100 + 15 / 100 +
      15 / 100 : ℚ) = 1 ∧
    (0 ≤ (confidenceScore response query citations chunks h c).confidence_score ∧
      (confidenceScore response query citations chunks h c).confidence_score ≤ 1) ∧
    (0 ≤ (confidenceScore response query citations chunks h c).source_coverage_score ∧
      (confidenceScore response query citations chunks h c).source_coverage_score ≤ 1) ∧
    (0 ≤ (confidenceScore response query citations chunks h c).citation_density_score ∧
      (confidenceScore response query citations chunks h c).citation_density_score ≤ 1) ∧
    (0 ≤ (confidenceScore response query citations chunks h c).specificity_score ∧
      (confidenceScore response query citations chunks h c).specificity_score ≤ 1) ∧
    (0 ≤ (confidenceScore response query citations chunks h c).hedging_penalty ∧
      (confidenceScore response query citations chunks h c).hedging_penalty ≤ 1) ∧
    (0 ≤ (confidenceScore response query citations chunks h c).retrieval_relevance_score ∧
      (confidenceScore response query citations chunks h c).retrieval_relevance_score ≤ 1) := by
  refine ⟨rfl, by norm_num, round4_clamp01_mem _, ?_, ?_, ?_, ?_, ?_⟩
  · exact ⟨round4_nonneg (scoreSourceCoverage_mem query chunks).1,
      round4_le_one (scoreSourceCoverage_mem query chunks).2⟩
  · exact ⟨round4_nonneg (scoreCitationDensity_mem response).1,
      round4_le_one (scoreCitationDensity_mem response).2⟩
  · exact ⟨round4_nonneg (scoreSpecificity_mem response).1,
      round4_le_one (scoreSpecificity_mem response).2⟩
  · exact ⟨round4_nonneg (scoreHedgingPenalty_mem response).1,
      round4_le_one (scoreHedgingPenalty_mem response).2⟩
  · exact ⟨round4_nonneg (scoreRetrievalRelevance_mem citations).1,
      round4_le_one (scoreRetrievalRelevance_mem citations).2⟩

/-! ### Entity overlap (hallucination_detector.py, lines 173-193) -/

/-- HallucinationDetector._entity_overlap_check.  The regex based helper
_extract_financial_entities returns a Python set of entity strings; it is
the `extract` parameter here, applied exactly as the source applies it: to
the response text and to the space-joined source chunks. -/
def entityOverlapCheck (extract : PyStr → Finset PyStr) (response_text : PyStr)
    (source_chunks : List PyStr) : ℚ :=
  let response_entities := extract response_text
  if response_entities = ∅ then 1
  else
    let source_text := pySpaceJoin source_chunks
    let source_entities := extract source_text
    if source_entities = ∅ then 1 / 2
    else
      let matched := ((response_entities.filter (fun e => e ∈ source_entities)).card : ℚ)
      matched / response_entities.card

/-- C8: the entity-overlap score is 1.0 when the response has no extractable
entities, 0.5 when it has entities but the joined sources have none, and
otherwise the fraction of response entities present among the source
entities; consequently a response all of whose entities are absent from the
sources scores strictly lower than one all of whose entities come from the
sources. -/
theorem entityOverlap_spec (extract : PyStr → Finset PyStr) (chunks : List PyStr) :
    (∀ resp, extract resp = ∅ → entityOverlapCheck extract resp chunks = 1) ∧
    (∀ resp, extract resp ≠ ∅ → extract (pySpaceJoin chunks) = ∅ →
      entityOverlapCheck extract resp chunks = 1 / 2) ∧
    (∀ resp, extract resp ≠ ∅ → extract (pySpaceJoin chunks) ≠ ∅ →
      entityOverlapCheck extract resp chunks =
        (((extract resp).filter (fun e => e ∈ extract (pySpaceJoin chunks))).card : ℚ) /
          (extract resp).card) ∧
    (∀ respA respB, extract respA ≠ ∅ →
      (∀ e ∈ extract respA, e ∉ extract (pySpaceJoin chunks)) →
      (∀ e ∈ extract respB, e ∈ extract (pySpaceJoin chunks)) →
      entityOverlapCheck extract respA chunks < entityOverlapCheck extract respB chunks) := by
  refine ⟨?_, ?_, ?_, ?_⟩
  · intro resp hre
    simp [entityOverlapCheck, hre]
  · intro resp hre hse
    simp [entityOverlapCheck, hre, hse]
  · intro resp hre hse
    simp [entityOverlapCheck, hre, hse]
  · intro respA respB hA habsent hdrawn
    by_cases hse : extract (pySpaceJoin chunks) = ∅
    · -- no source entities: A is unverifiable (0.5); B then has no entities (1.0)
      have hBempty : extract respB = ∅ := by
        refine Finset.eq_empty_iff_forall_not_mem.2 (fun e he => ?_)
        have := hdrawn e he
        rw [hse] at this
        exact absurd this (Finset.not_mem_empty e)
      have hAval : entityOverlapCheck extract respA chunks = 1 / 2 := by
        simp [entityOverlapCheck, hA, hse]
      have hBval : entityOverlapCheck extract respB chunks = 1 := by
        simp [entityOverlapCheck, hBempty]
      rw [hAval, hBval]
      norm_num
    · -- source entities exist: A matches none (score 0), B matches all (score 1)
      have hAfilter : (extract respA).filter (fun e => e ∈ extract (pySpaceJoin chunks)) = ∅ := by
        refine Finset.eq_empty_iff_forall_not_mem.2 (fun e he => ?_)
        rcases Finset.mem_filter.1 he with ⟨heA, heS⟩
        exact habsent e heA heS
      have hAval : entityOverlapCheck extract respA chunks = 0 := by
        simp [entityOverlapCheck, hA, hse, hAfilter]
      have hBval : entityOverlapCheck extract respB chunks = 1 := by
        by_cases hB : extract respB = ∅
        · simp [entityOverlapCheck, hB]
        · have hBfilter : (extract respB).filter (fun e => e ∈ extract (pySpaceJoin chunks)) =
              extract respB :=
            Finset.filter_eq_self.2 hdrawn
          have hBcard : (0 : ℚ) < (extract respB).card := by
            have := Finset.card_pos.2 (Finset.nonempty_iff_ne_empty.2 hB)
            exact_mod_cast this
          simp only [entityOverlapCheck, if_neg hB, if_neg hse, hBfilter]
          exact div_self (ne_of_gt hBcard)
      rw [hAval, hBval]
      norm_num

/-- Concrete instantiation of the entity-overlap comparison: with the digits
of a text as its entities and a source containing only "5", a response
consisting of "7" scores strictly below a response consisting of "5". -/
theorem entityOverlap_spec_w :
    entityOverlapCheck
        (fun s => ((s.filter Char.isDigit).map (fun c => [c])).toFinset)
        ['7'] [['5']] <
      entityOverlapCheck
        (fun s => ((s.filter Char.isDigit).map (fun c => [c])).toFinset)
        ['5'] [['5']] := by
  refine (entityOverlap_spec
      (fun s => ((s.filter Char.isDigit).map (fun c => [c])).toFinset)
      [['5']]).2.2.2 ['7'] ['5'] (by decide) (by decide) (by decide)

/-! ### Hybrid retrieval fusion (src/rag/retriever.py) -/

/-- The metadata dict of a retrieval result; absent keys fall back to the
defaults _build_citations supplies via `.get`. -/
structure ChunkMetadata where
  company_name : Option PyStr := none
  filing_type : Option PyStr := none
  filing_date : Option PyStr := none
  section' : Option String := none
deriving DecidableEq

/-- One retrieval result dict as the vector store returns it and as fusion
decorates it (`rrf_score` is set by the fusion step). -/
structure SearchResult where
  chunk_id : String
  content : PyStr := []
  metadata : ChunkMetadata := {}
  relevance_score : Option ℚ := none
  rrf_score : Option ℚ := none
deriving DecidableEq

/-- Python `scores[chunk_id] = scores.get(chunk_id, 0) + w` on an
insertion-ordered dict: an existing key keeps its position, a new key is
appended. -/
def updateScore (scores : List (String × ℚ)) (cid : String) (w : ℚ) :
    List (String × ℚ) :=
  if (scores.map Prod.fst).contains cid then
    scores.map (fun p => if p.1 = cid then (p.1, p.2 + w) else p)
  else scores ++ [(cid, w)]

/-- Python `chunk_map[chunk_id] = result`: overwrite keeps the position. -/
def setChunk (m : List (String × SearchResult)) (cid : String) (r : SearchResult) :
    List (String × SearchResult) :=
  if (m.map Prod.fst).contains cid then
    m.map (fun p => if p.1 = cid then (p.1, r) else p)
  else m ++ [(cid, r)]

/-- Python `if chunk_id not in chunk_map: chunk_map[chunk_id] = result`. -/
def setChunkIfAbsent (m : List (String × SearchResult)) (cid : String)
    (r : SearchResult) : List (String × SearchResult) :=
  if (m.map Prod.fst).contains cid then m else m ++ [(cid, r)]

/-- The ordering Python's stable `sorted(..., key=lambda x: scores[x],
reverse=True)` realizes on position-decorated entries: strictly larger
score first, ties kept in original order. -/
def scoreDescKey (a b : ℕ × (String × ℚ)) : Prop :=
  b.2.2 < a.2.2 ∨ (a.2.2 = b.2.2 ∧ a.1 ≤ b.1)

instance : DecidableRel scoreDescKey := fun a b => by
  unfold scoreDescKey
  infer_instance

instance : IsTotal (ℕ × (String × ℚ)) scoreDescKey := by
  constructor
  intro a b
  rcases lt_trichotomy a.2.2 b.2.2 with h | h | h
  · exact Or.inr (Or.inl h)
  · rcases Nat.le_total a.1 b.1 with h2 | h2
    · exact Or.inl (Or.inr ⟨h, h2⟩)
    · exact Or.inr (Or.inr ⟨h.symm, h2⟩)
  · exact Or.inl (Or.inl h)

instance : IsTrans (ℕ × (String × ℚ)) scoreDescKey := by
  constructor
  intro a b c hab hbc
  rcases hab with h1 | ⟨h1, h1i⟩ <;> rcases hbc with h2 | ⟨h2, h2i⟩
  · exact Or.inl (h2.trans h1)
  · exact Or.inl (h2 ▸ h1)
  · exact Or.inl (h1 ▸ h2)
  · exact Or.inr ⟨h1.trans h2, h1i.trans h2i⟩

/-- Python's stable descending sort of the score dict's entries, in the
standard decorate-by-position, lexicographic-sort, undecorate
presentation. -/
def pySortScoresDesc (scores : List (String × ℚ)) : List (String × ℚ) :=
  ((scores.enum).insertionSort scoreDescKey).map Prod.snd

/-- Python `chunk_map[chunk_id]` (total here; under the fusion invariant
every scored id is in the map, so the default is never reached). -/
def lookupChunk (m : List (String × SearchResult)) (cid : String) : SearchResult :=
  (m.lookup cid).getD { chunk_id := cid }

/-- HybridRetriever._reciprocal_rank_fusion (retriever.py, lines 111-156).
The constant k = 60 is the source's default parameter, never overridden at
a call site. -/
def reciprocalRankFusion (semantic keyword : List SearchResult) (alpha : ℚ) :
    List SearchResult :=
  let k : ℚ := 60
  let afterSem := semantic.enum.foldl
    (fun acc p =>
      (updateScore acc.1 p.2.chunk_id (alpha / (k + (p.1 : ℚ) + 1)),
       setChunk acc.2 p.2.chunk_id p.2))
    ([], [])
  let afterKw := keyword.enum.foldl
    (fun acc p =>
      (updateScore acc.1 p.2.chunk_id ((1 - alpha) / (k + (p.1 : ℚ) + 1)),
       setChunkIfAbsent acc.2 p.2.chunk_id p.2))
    afterSem
  (pySortScoresDesc afterKw.1).map
    (fun p => { lookupChunk afterKw.2 p.1 with rrf_score := some p.2 })

/-- HybridRetriever._build_citations (retriever.py, lines 158-183): the
excerpt is the whitespace-stripped first 200 characters of the content,
with "..." appended when the content is longer than 200 characters. -/
def buildCitation (result : SearchResult) : Citation :=
  let content := result.content
  let excerpt := pyStrip (content.take 200)
  let excerpt := if 200 < content.length then excerpt ++ "...".data else excerpt
  { chunk_id := result.chunk_id,
    source_document :=
      pyStrip ((result.metadata.company_name.getD "Unknown".data) ++ [' '] ++
        (result.metadata.filing_type.getD []) ++ [' '] ++
        (result.metadata.filing_date.getD [])),
    section' := result.metadata.section'.getD "",
    relevance_score := result.rrf_score.getD (result.relevance_score.getD 0),
    text_excerpt := excerpt }

def buildCitations (results : List SearchResult) : List Citation :=
  results.map buildCitation

/-- C9 counterexample: a chunk of 201 non-space characters yields a
text_excerpt of 203 characters (200 kept characters plus the ellipsis), so
the excerpt is not at most 200 characters long; and a chunk starting with a
space yields an excerpt that differs from its first 200 characters, because
the code strips whitespace before appending the ellipsis. -/
theorem buildCitation_excerpt_cex :
    200 < (buildCitation ({ chunk_id := "c1",
                             content := List.replicate 201 'a' } :
        SearchResult)).text_excerpt.length ∧
    (buildCitation ({ chunk_id := "c2",
                      content := ' ' :: List.replicate 200 'a' } :
        SearchResult)).text_excerpt ≠
      (' ' :: List.replicate 200 'a').take 200 ++ "...".data := by
  constructor
  · decide
  · decide

/-- C9 amended: for every chunk surviving fusion, the Citation's
text_excerpt equals the whitespace-stripped first 200 characters of the
chunk's content, suffixed with an ellipsis when the content exceeds 200
characters, and the text_excerpt is at most 203 characters long. -/
theorem buildCitation_excerpt_spec (r : SearchResult) :
    (buildCitation r).text_excerpt =
      (if 200 < r.content.length then pyStrip (r.content.take 200) ++ "...".data
       else pyStrip (r.content.take 200)) ∧
    (buildCitation r).text_excerpt.length ≤ 203 ∧
    (∀ results : List SearchResult, buildCitations results = results.map buildCitation) := by
  refine ⟨rfl, ?_, fun _ => rfl⟩
  have hstrip : (pyStrip (r.content.take 200)).length ≤ 200 := by
    calc (pyStrip (r.content.take 200)).length ≤ (r.content.take 200).length :=
          pyStrip_length_le _
      _ ≤ 200 := by
          rw [List.length_take]
          exact min_le_left _ _
  show (if 200 < r.content.length then pyStrip (r.content.take 200) ++ "...".data
      else pyStrip (r.content.take 200)).length ≤ 203
  split
  · rw [List.length_append]
    simp only [List.length]
    omega
  · omega

/-! ### Analysis of the fusion fold

The score dict built by the two fusion loops is characterized by a
canonical form: its keys are the chunk ids in order of first occurrence
across `semantic ++ keyword`, and each value is the sum of the RRF
contributions of that id's occurrences. -/

/-- The individual RRF contributions, in processing order: one per semantic
rank with weight alpha, then one per keyword rank with weight 1 − alpha
(k = 60). -/
def rrfContribs (semantic keyword : List SearchResult) (alpha : ℚ) :
    List (String × ℚ) :=
  semantic.enum.map (fun p => (p.2.chunk_id, alpha / (60 + (p.1 : ℚ) + 1))) ++
  keyword.enum.map (fun p => (p.2.chunk_id, (1 - alpha) / (60 + (p.1 : ℚ) + 1)))

/-- The score dict as the fold of `updateScore` over the contributions. -/
def applyContribs (contribs : List (String × ℚ)) : List (String × ℚ) :=
  contribs.foldl (fun sc q => updateScore sc q.1 q.2) []

/-- The chunk map after both fusion loops. -/
def chunkMapOf (semantic keyword : List SearchResult) :
    List (String × SearchResult) :=
  keyword.enum.foldl (fun m p => setChunkIfAbsent m p.2.chunk_id p.2)
    (semantic.enum.foldl (fun m p => setChunk m p.2.chunk_id p.2) [])

/-- Chunk ids in order of first occurrence (Python dict key order). -/
def firstOccurrences (ids : List String) : List String :=
  ids.foldl (fun acc i => if acc.contains i then acc else acc ++ [i]) []

/-- Total RRF contribution of the occurrences of one chunk id. -/
def sumForKey (contribs : List (String × ℚ)) (c : String) : ℚ :=
  ((contribs.filter (fun q => q.1 = c)).map Prod.snd).sum

/-- The canonical form of the score dict. -/
def canonScores (contribs : List (String × ℚ)) : List (String × ℚ) :=
  (firstOccurrences (contribs.map Prod.fst)).map (fun c => (c, sumForKey contribs c))

theorem foldl_pair_fst {α β δ : Type} (f : α → δ → α) (g : β → δ → β)
    (l : List δ) (a : α) (b : β) :
    (l.foldl (fun acc p => (f acc.1 p, g acc.2 p)) (a, b)).1 = l.foldl f a := by
  induction l generalizing a b with
  | nil => rfl
  | cons x xs ih => simp only [List.foldl_cons]; exact ih _ _

theorem foldl_pair_snd {α β δ : Type} (f : α → δ → α) (g : β → δ → β)
    (l : List δ) (a : α) (b : β) :
    (l.foldl (fun acc p => (f acc.1 p, g acc.2 p)) (a, b)).2 = l.foldl g b := by
  induction l generalizing a b with
  | nil => rfl
  | cons x xs ih => simp only [List.foldl_cons]; exact ih _ _

/-- The fusion function in terms of its three separated stages. -/
theorem reciprocalRankFusion_eq (semantic keyword : List SearchResult) (alpha : ℚ) :
    reciprocalRankFusion semantic keyword alpha =
      (pySortScoresDesc (applyContribs (rrfContribs semantic keyword alpha))).map
        (fun p => { lookupChunk (chunkMapOf semantic keyword) p.1 with
                    rrf_score := some p.2 }) := by
  unfold reciprocalRankFusion applyContribs rrfContribs chunkMapOf
  have h1 : (semantic.enum.foldl
      (fun acc p =>
        (updateScore acc.1 p.2.chunk_id (alpha / (60 + (p.1 : ℚ) + 1)),
         setChunk acc.2 p.2.chunk_id p.2))
      (([], []) : List (String × ℚ) × List (String × SearchResult))) =
      (semantic.enum.foldl
        (fun sc p => updateScore sc p.2.chunk_id (alpha / (60 + (p.1 : ℚ) + 1))) [],
       semantic.enum.foldl (fun m p => setChunk m p.2.chunk_id p.2) []) := by
    exact Prod.ext_iff.2
      ⟨foldl_pair_fst (fun sc p => updateScore sc p.2.chunk_id (alpha / (60 + (p.1 : ℚ) + 1)))
          (fun m p => setChunk m p.2.chunk_id p.2) semantic.enum [] [],
        foldl_pair_snd (fun sc p => updateScore sc p.2.chunk_id (alpha / (60 + (p.1 : ℚ) + 1)))
          (fun m p => setChunk m p.2.chunk_id p.2) semantic.enum [] []⟩
  have h2 : (keyword.enum.foldl
      (fun acc p =>
        (updateScore acc.1 p.2.chunk_id ((1 - alpha) / (60 + (p.1 : ℚ) + 1)),
         setChunkIfAbsent acc.2 p.2.chunk_id p.2))
      (semantic.enum.foldl
        (fun sc p => updateScore sc p.2.chunk_id (alpha / (60 + (p.1 : ℚ) + 1))) [],
       semantic.enum.foldl (fun m p => setChunk m p.2.chunk_id p.2) [])) =
      (keyword.enum.foldl
        (fun sc p => updateScore sc p.2.chunk_id ((1 - alpha) / (60 + (p.1 : ℚ) + 1)))
        (semantic.enum.foldl
          (fun sc p => updateScore sc p.2.chunk_id (alpha / (60 + (p.1 : ℚ) + 1))) []),
       keyword.enum.foldl (fun m p => setChunkIfAbsent m p.2.chunk_id p.2)
        (semantic.enum.foldl (fun m p => setChunk m p.2.chunk_id p.2) [])) := by
    exact Prod.ext_iff.2
      ⟨foldl_pair_fst
          (fun sc p => updateScore sc p.2.chunk_id ((1 - alpha) / (60 + (p.1 : ℚ) + 1)))
          (fun m p => setChunkIfAbsent m p.2.chunk_id p.2) keyword.enum _ _,
        foldl_pair_snd
          (fun sc p => updateScore sc p.2.chunk_id ((1 - alpha) / (60 + (p.1 : ℚ) + 1)))
          (fun m p => setChunkIfAbsent m p.2.chunk_id p.2) keyword.enum _ _⟩
  rw [List.foldl_append, List.foldl_map, List.foldl_map]
  dsimp only
  rw [h1, h2]

theorem contains_iff_mem (l : List String) (a : String) :
    l.contains a = true ↔ a ∈ l := List.elem_iff

theorem mem_firstOcc_foldl (ids : List String) :
    ∀ (acc : List String) (i : String),
      (i ∈ ids.foldl (fun acc j => if acc.contains j then acc else acc ++ [j]) acc ↔
        i ∈ acc ∨ i ∈ ids) := by
  induction ids with
  | nil => intro acc i; simp
  | cons a t ih =>
      intro acc i
      rw [List.foldl_cons]
      rw [ih]
      by_cases h : acc.contains a
      · have ha : a ∈ acc := (contains_iff_mem acc a).1 h
        rw [if_pos h]
        constructor
        · rintro (h1 | h1)
          · exact Or.inl h1
          · exact Or.inr (List.mem_cons_of_mem a h1)
        · rintro (h1 | h1)
          · exact Or.inl h1
          · rcases List.mem_cons.1 h1 with h2 | h2
            · exact Or.inl (h2 ▸ ha)
            · exact Or.inr h2
      · rw [if_neg h]
        constructor
        · rintro (h1 | h1)
          · rcases List.mem_append.1 h1 with h2 | h2
            · exact Or.inl h2
            · exact Or.inr (List.mem_cons.2 (Or.inl (List.mem_singleton.1 h2)))
          · exact Or.inr (List.mem_cons_of_mem a h1)
        · rintro (h1 | h1)
          · exact Or.inl (List.mem_append.2 (Or.inl h1))
          · rcases List.mem_cons.1 h1 with h2 | h2
            · exact Or.inl (List.mem_append.2 (Or.inr (List.mem_singleton.2 h2)))
            · exact Or.inr h2

theorem mem_firstOccurrences (ids : List String) (i : String) :
    i ∈ firstOccurrences ids ↔ i ∈ ids := by
  unfold firstOccurrences
  rw [mem_firstOcc_foldl]
  simp

theorem nodup_firstOcc_foldl (ids : List String) :
    ∀ acc : List String, acc.Nodup →
      (ids.foldl (fun acc j => if acc.contains j then acc else acc ++ [j]) acc).Nodup := by
  induction ids with
  | nil => intro acc h; exact h
  | cons a t ih =>
      intro acc h
      rw [List.foldl_cons]
      by_cases hc : acc.contains a
      · rw [if_pos hc]; exact ih acc h
      · rw [if_neg hc]
        refine ih _ (List.nodup_append.2 ⟨h, List.nodup_singleton a, ?_⟩)
        intro x hx hx1
        rw [List.mem_singleton] at hx1
        subst hx1
        exact hc ((contains_iff_mem acc x).2 hx)

theorem nodup_firstOccurrences (ids : List String) : (firstOccurrences ids).Nodup :=
  nodup_firstOcc_foldl ids [] List.nodup_nil

theorem firstOccurrences_concat (ids : List String) (i : String) :
    firstOccurrences (ids ++ [i]) =
      if (firstOccurrences ids).contains i then firstOccurrences ids
      else firstOccurrences ids ++ [i] := by
  unfold firstOccurrences
  rw [List.foldl_append]
  rfl

theorem sumForKey_concat (l : List (String × ℚ)) (q : String × ℚ) (c : String) :
    sumForKey (l ++ [q]) c = sumForKey l c + (if q.1 = c then q.2 else 0) := by
  unfold sumForKey
  rw [List.filter_append]
  by_cases h : q.1 = c
  · simp [h]
  · simp [h]

theorem sumForKey_of_not_mem (l : List (String × ℚ)) (c : String)
    (h : c ∉ l.map Prod.fst) : sumForKey l c = 0 := by
  unfold sumForKey
  have hf : l.filter (fun q => decide (q.1 = c)) = [] := by
    rw [List.filter_eq_nil_iff]
    intro q hq
    simp only [decide_eq_true_eq]
    intro hqc
    exact h (hqc ▸ List.mem_map_of_mem Prod.fst hq)
  rw [hf]
  rfl

theorem canonScores_keys (contribs : List (String × ℚ)) :
    (canonScores contribs).map Prod.fst = firstOccurrences (contribs.map Prod.fst) := by
  unfold canonScores
  rw [List.map_map]
  conv_rhs => rw [← List.map_id (firstOccurrences (contribs.map Prod.fst))]
  exact List.map_congr_left (fun c _ => rfl)

theorem canonScores_concat (l : List (String × ℚ)) (q : String × ℚ) :
    canonScores (l ++ [q]) = updateScore (canonScores l) q.1 q.2 := by
  have hkeys := canonScores_keys l
  unfold updateScore
  rw [hkeys]
  unfold canonScores
  rw [List.map_append, List.map_singleton, firstOccurrences_concat]
  by_cases h : (firstOccurrences (l.map Prod.fst)).contains q.1
  · rw [if_pos h, if_pos h, List.map_map]
    apply List.map_congr_left
    intro c hc
    simp only [Function.comp_apply]
    by_cases hcq : q.1 = c
    · rw [sumForKey_concat, if_pos hcq, if_pos hcq.symm]
    · rw [sumForKey_concat, if_neg hcq, add_zero,
        if_neg (fun hh => hcq hh.symm)]
  · rw [if_neg h, if_neg h, List.map_append, List.map_singleton]
    congr 1
    · apply List.map_congr_left
      intro c hc
      have hcq : ¬ q.1 = c := by
        intro hqc
        exact h ((contains_iff_mem _ _).2 (hqc ▸ hc))
      rw [sumForKey_concat, if_neg hcq, add_zero]

    · have hnm : q.1 ∉ l.map Prod.fst := by
        intro hmem
        exact h ((contains_iff_mem _ _).2 ((mem_firstOccurrences _ _).2 hmem))
      rw [sumForKey_concat, if_pos rfl, sumForKey_of_not_mem l q.1 hnm, zero_add]

theorem applyContribs_eq_canon (contribs : List (String × ℚ)) :
    applyContribs contribs = canonScores contribs := by
  induction contribs using List.reverseRecOn with
  | nil => rfl
  | append_singleton l q ih =>
      unfold applyContribs at ih ⊢
      rw [List.foldl_concat, ih, canonScores_concat]

theorem enum_map_chunk (l : List SearchResult) (f : ℕ × SearchResult → ℚ) :
    (l.enum.map (fun p => (p.2.chunk_id, f p))).map Prod.fst =
      l.map SearchResult.chunk_id := by
  rw [List.map_map]
  have h : (Prod.fst ∘ fun p : ℕ × SearchResult => (p.2.chunk_id, f p)) =
      (SearchResult.chunk_id ∘ Prod.snd) := rfl
  rw [h, ← List.map_map, List.enum_map_snd]

theorem rrfContribs_keys (semantic keyword : List SearchResult) (alpha : ℚ) :
    (rrfContribs semantic keyword alpha).map Prod.fst =
      (semantic ++ keyword).map SearchResult.chunk_id := by
  unfold rrfContribs
  rw [List.map_append, List.map_append, enum_map_chunk, enum_map_chunk]

theorem rrfContribs_weight_mem (semantic keyword : List SearchResult) (alpha : ℚ)
    (h0 : 0 < alpha) (h1 : alpha < 1) :
    ∀ q ∈ rrfContribs semantic keyword alpha, 0 < q.2 ∧ q.2 ≤ 1 / 61 := by
  intro q hq
  unfold rrfContribs at hq
  rcases List.mem_append.1 hq with h | h <;> rcases List.mem_map.1 h with ⟨p, hp, rfl⟩
  · have hden : (0 : ℚ) < 60 + (p.1 : ℚ) + 1 := by positivity
    have h61 : (61 : ℚ) ≤ 60 + (p.1 : ℚ) + 1 := by
      have hp0 : (0 : ℚ) ≤ (p.1 : ℚ) := Nat.cast_nonneg _
      linarith
    exact ⟨div_pos h0 hden, div_le_div₀ zero_le_one h1.le (by norm_num) h61⟩
  · have hden : (0 : ℚ) < 60 + (p.1 : ℚ) + 1 := by positivity
    have h61 : (61 : ℚ) ≤ 60 + (p.1 : ℚ) + 1 := by
      have hp0 : (0 : ℚ) ≤ (p.1 : ℚ) := Nat.cast_nonneg _
      linarith
    have hpos : (0 : ℚ) < 1 - alpha := by linarith
    have hle1 : 1 - alpha ≤ 1 := by linarith
    exact ⟨div_pos hpos hden, div_le_div₀ zero_le_one hle1 (by norm_num) h61⟩

theorem filter_key_length_eq_count (l : List (String × ℚ)) (c : String) :
    (l.filter (fun q => q.1 = c)).length = (l.map Prod.fst).count c := by
  rw [List.count_eq_countP, List.countP_map, ← List.countP_eq_length_filter]
  apply List.countP_congr
  intro q _
  by_cases h : q.1 = c <;> simp [h]

theorem sumForKey_bounds (contribs : List (String × ℚ)) (c : String)
    (hw : ∀ q ∈ contribs, 0 < q.2 ∧ q.2 ≤ 1 / 61)
    (hc : c ∈ contribs.map Prod.fst) :
    0 < sumForKey contribs c ∧
      sumForKey contribs c ≤ ((contribs.map Prod.fst).count c : ℚ) / 61 := by
  unfold sumForKey
  have hne : contribs.filter (fun q => decide (q.1 = c)) ≠ [] := by
    rcases List.mem_map.1 hc with ⟨r, hr, hrc⟩
    intro hnil
    have hmem : r ∈ contribs.filter (fun q => decide (q.1 = c)) :=
      List.mem_filter.2 ⟨hr, by simp [hrc]⟩
    rw [hnil] at hmem
    exact absurd hmem (List.not_mem_nil r)
  constructor
  · apply List.sum_pos
    · intro x hx
      rcases List.mem_map.1 hx with ⟨q, hq, rfl⟩
      exact (hw q (List.mem_of_mem_filter hq)).1
    · intro hmapnil
      exact hne (List.map_eq_nil_iff.1 hmapnil)
  · have hbound : ∀ x ∈ (contribs.filter (fun q => decide (q.1 = c))).map Prod.snd,
        x ≤ (1 : ℚ) / 61 := by
      intro x hx
      rcases List.mem_map.1 hx with ⟨q, hq, rfl⟩
      exact (hw q (List.mem_of_mem_filter hq)).2
    have hsum := List.sum_le_card_nsmul
      ((contribs.filter (fun q => decide (q.1 = c))).map Prod.snd) (1 / 61) hbound
    rw [List.length_map, nsmul_eq_mul] at hsum
    rw [← filter_key_length_eq_count]
    calc ((contribs.filter (fun q => decide (q.1 = c))).map Prod.snd).sum
        ≤ ((contribs.filter (fun q => decide (q.1 = c))).length : ℚ) * (1 / 61) := hsum
      _ = ((contribs.filter (fun q => decide (q.1 = c))).length : ℚ) / 61 := by ring

theorem chunkMapOf_inv (semantic keyword : List SearchResult) :
    ∀ e ∈ chunkMapOf semantic keyword, e.2.chunk_id = e.1 := by
  unfold chunkMapOf
  have hstep1 : ∀ (l : List (ℕ × SearchResult)) (m : List (String × SearchResult)),
      (∀ e ∈ m, e.2.chunk_id = e.1) →
      ∀ e ∈ l.foldl (fun m p => setChunk m p.2.chunk_id p.2) m, e.2.chunk_id = e.1 := by
    intro l
    induction l with
    | nil => intro m hm; exact hm
    | cons x xs ih =>
        intro m hm
        rw [List.foldl_cons]
        apply ih
        intro e he
        unfold setChunk at he
        split at he
        · rcases List.mem_map.1 he with ⟨p, hp, rfl⟩
          by_cases hpc : p.1 = x.2.chunk_id
          · rw [if_pos hpc]
            exact hpc.symm
          · rw [if_neg hpc]
            exact hm p hp
        · rcases List.mem_append.1 he with h | h
          · exact hm e h
          · rw [List.mem_singleton] at h
            subst h
            rfl
  have hstep2 : ∀ (l : List (ℕ × SearchResult)) (m : List (String × SearchResult)),
      (∀ e ∈ m, e.2.chunk_id = e.1) →
      ∀ e ∈ l.foldl (fun m p => setChunkIfAbsent m p.2.chunk_id p.2) m,
        e.2.chunk_id = e.1 := by
    intro l
    induction l with
    | nil => intro m hm; exact hm
    | cons x xs ih =>
        intro m hm
        rw [List.foldl_cons]
        apply ih
        intro e he
        unfold setChunkIfAbsent at he
        split at he
        · exact hm e he
        · rcases List.mem_append.1 he with h | h
          · exact hm e h
          · rw [List.mem_singleton] at h
            subst h
            rfl
  exact hstep2 _ _ (hstep1 _ _ (fun e he => absurd he (List.not_mem_nil e)))

theorem lookupChunk_chunk_id (m : List (String × SearchResult)) (cid : String)
    (hinv : ∀ e ∈ m, e.2.chunk_id = e.1) : (lookupChunk m cid).chunk_id = cid := by
  unfold lookupChunk
  induction m with
  | nil => rfl
  | cons e t ih =>
      obtain ⟨k, v⟩ := e
      by_cases h : cid = k
      · have hbeq : (cid == k) = true := by simp [h]
        simp only [List.lookup, hbeq, Option.getD_some]
        have := hinv (k, v) (List.mem_cons_self _ _)
        simp only at this
        rw [this, h]
      · have hbeq : (cid == k) = false := by simp [h]
        simp only [List.lookup, hbeq]
        exact ih (fun x hx => hinv x (List.mem_cons_of_mem _ hx))

theorem pySortScoresDesc_perm (scores : List (String × ℚ)) :
    (pySortScoresDesc scores).Perm scores := by
  unfold pySortScoresDesc
  have h1 := (List.perm_insertionSort scoreDescKey scores.enum).map Prod.snd
  rw [List.enum_map_snd] at h1
  exact h1

theorem sortedPairs_fst_nodup (scores : List (String × ℚ)) :
    ((scores.enum.insertionSort scoreDescKey).map Prod.fst).Nodup := by
  have hperm := (List.perm_insertionSort scoreDescKey scores.enum).map Prod.fst
  exact hperm.nodup_iff.2 (List.nodup_enum_map_fst _)

/-- C7: reciprocal rank fusion is deterministic — identical inputs in
identical order give the identical fused ranking — the fused list is sorted
by rrf score descending, candidates are deduplicated by chunk identity, and
candidates with equal fused scores are ordered deterministically by chunk
identity: by the position of the chunk id's first occurrence across the two
input lists (Python's stable sort over dict insertion order). -/
theorem rrf_deterministic_stable (semantic keyword : List SearchResult) (alpha : ℚ) :
    reciprocalRankFusion semantic keyword alpha =
      reciprocalRankFusion semantic keyword alpha ∧
    List.Sorted (fun a b : SearchResult => b.rrf_score.getD 0 ≤ a.rrf_score.getD 0)
      (reciprocalRankFusion semantic keyword alpha) ∧
    ((reciprocalRankFusion semantic keyword alpha).map SearchResult.chunk_id).Nodup ∧
    (∀ i j : ℕ, i < j →
      ∀ ri rj : SearchResult,
      (reciprocalRankFusion semantic keyword alpha)[i]? = some ri →
      (reciprocalRankFusion semantic keyword alpha)[j]? = some rj →
      ri.rrf_score.getD 0 = rj.rrf_score.getD 0 →
      (firstOccurrences ((semantic ++ keyword).map SearchResult.chunk_id)).indexOf
          ri.chunk_id <
        (firstOccurrences ((semantic ++ keyword).map SearchResult.chunk_id)).indexOf
          rj.chunk_id) := by
  set scores := applyContribs (rrfContribs semantic keyword alpha) with hscores
  set srt := scores.enum.insertionSort scoreDescKey with hsrt
  set g : ℕ × (String × ℚ) → SearchResult := fun e =>
    ({ lookupChunk (chunkMapOf semantic keyword) e.2.1 with
       rrf_score := some e.2.2 } : SearchResult) with hg
  have hkeysfo : scores.map Prod.fst =
      firstOccurrences ((semantic ++ keyword).map SearchResult.chunk_id) := by
    rw [hscores, applyContribs_eq_canon, canonScores_keys, rrfContribs_keys]
  have hinv := chunkMapOf_inv semantic keyword
  have hform : reciprocalRankFusion semantic keyword alpha = srt.map g := by
    rw [reciprocalRankFusion_eq]
    unfold pySortScoresDesc
    rw [← hscores, ← hsrt, List.map_map]
    rfl
  have hsorted := List.sorted_insertionSort scoreDescKey scores.enum
  rw [← hsrt] at hsorted
  have hchunkid : ∀ e : ℕ × (String × ℚ), (g e).chunk_id = e.2.1 := by
    intro e
    show (lookupChunk (chunkMapOf semantic keyword) e.2.1).chunk_id = e.2.1
    exact lookupChunk_chunk_id _ _ hinv
  have hscoreval : ∀ e : ℕ × (String × ℚ), (g e).rrf_score.getD 0 = e.2.2 :=
    fun e => rfl
  refine ⟨rfl, ?_, ?_, ?_⟩
  · -- sorted by fused score descending
    rw [hform]
    have hrel : ∀ a b : ℕ × (String × ℚ), scoreDescKey a b →
        (g b).rrf_score.getD 0 ≤ (g a).rrf_score.getD 0 := by
      intro a b hab
      rw [hscoreval, hscoreval]
      rcases hab with h | ⟨h, _⟩
      · exact h.le
      · exact h.ge
    exact List.Pairwise.map g hrel hsorted
  · -- deduplicated by chunk identity
    rw [hform, List.map_map]
    have hcongr : srt.map (SearchResult.chunk_id ∘ g) =
        srt.map (fun e => e.2.1) :=
      List.map_congr_left (fun e _ => hchunkid e)
    rw [hcongr]
    have h2 : srt.map (fun e : ℕ × (String × ℚ) => e.2.1) =
        (srt.map Prod.snd).map Prod.fst := by
      rw [List.map_map]
      rfl
    rw [h2]
    have hperm := ((List.perm_insertionSort scoreDescKey scores.enum).map
      Prod.snd).map Prod.fst
    rw [List.enum_map_snd, ← hsrt] at hperm
    refine hperm.nodup_iff.2 ?_
    rw [hkeysfo]
    exact nodup_firstOccurrences _
  · -- deterministic tie-break: first-occurrence order of the chunk ids
    intro i j hij ri rj hri hrj heq
    rw [hform, List.getElem?_map] at hri hrj
    obtain ⟨ei, hei, hgi⟩ := Option.map_eq_some'.1 hri
    obtain ⟨ej, hej, hgj⟩ := Option.map_eq_some'.1 hrj
    obtain ⟨hi, hgei⟩ := List.getElem?_eq_some_iff.1 hei
    obtain ⟨hj, hgej⟩ := List.getElem?_eq_some_iff.1 hej
    subst hgi hgj
    rw [hscoreval, hscoreval] at heq
    have hrel : scoreDescKey ei ej := by
      have h := List.Sorted.rel_get_of_lt hsorted
        (show (⟨i, hi⟩ : Fin srt.length) < ⟨j, hj⟩ from hij)
      rw [List.get_eq_getElem, List.get_eq_getElem] at h
      simpa [hgei, hgej] using h
    have hidx : ei.1 < ej.1 := by
      rcases hrel with hlt | ⟨hsceq, hle⟩
      · rw [heq] at hlt
        exact absurd hlt (lt_irrefl _)
      · rcases lt_or_eq_of_le hle with h | h
        · exact h
        · exfalso
          have hnd := sortedPairs_fst_nodup scores
          rw [← hsrt] at hnd
          have hmi : i < (srt.map Prod.fst).length := by
            rw [List.length_map]; exact hi
          have hmj : j < (srt.map Prod.fst).length := by
            rw [List.length_map]; exact hj
          have hii := List.indexOf_getElem hnd i hmi
          have hjj := List.indexOf_getElem hnd j hmj
          rw [List.getElem_map, hgei] at hii
          rw [List.getElem_map, hgej, ← h] at hjj
          omega
    have hmemi : ei ∈ scores.enum := by
      have hmem : ei ∈ srt := by
        rw [← hgei]; exact List.getElem_mem hi
      exact ((List.perm_insertionSort scoreDescKey scores.enum).mem_iff).1
        (by rw [← hsrt]; exact hmem)
    have hmemj : ej ∈ scores.enum := by
      have hmem : ej ∈ srt := by
        rw [← hgej]; exact List.getElem_mem hj
      exact ((List.perm_insertionSort scoreDescKey scores.enum).mem_iff).1
        (by rw [← hsrt]; exact hmem)
    have heni := List.mem_enum (show (ei.1, ei.2) ∈ scores.enum by simpa using hmemi)
    have henj := List.mem_enum (show (ej.1, ej.2) ∈ scores.enum by simpa using hmemj)
    have hfo := nodup_firstOccurrences ((semantic ++ keyword).map SearchResult.chunk_id)
    have hlenfo : scores.length =
        (firstOccurrences ((semantic ++ keyword).map SearchResult.chunk_id)).length := by
      rw [← hkeysfo, List.length_map]
    have hkey : ∀ n (hn : n < scores.length) (x : String × ℚ), x = scores[n] →
        (firstOccurrences ((semantic ++ keyword).map SearchResult.chunk_id)).indexOf
          x.1 = n := by
      intro n hn x hx
      have h5 : (firstOccurrences
          ((semantic ++ keyword).map SearchResult.chunk_id))[n]? = some x.1 := by
        rw [← hkeysfo, List.getElem?_map, List.getElem?_eq_getElem hn]
        simp [hx]
      obtain ⟨hn2, hogen⟩ := List.getElem?_eq_some_iff.1 h5
      rw [← hogen]
      exact List.indexOf_getElem hfo n hn2
    rw [hchunkid, hchunkid]
    rw [hkey ei.1 heni.1 ei.2 heni.2, hkey ej.1 henj.1 ej.2 henj.2]
    exact hidx

/-- Concrete instantiation of the fusion tie-break: with alpha = 1/2, a
semantic-only chunk "a" at rank 0 and a keyword-only chunk "b" at rank 0
receive the identical fused score 1/122, and the fused ranking orders "a"
before "b" — the first-occurrence order of the chunk ids. -/
theorem rrf_deterministic_stable_w :
    (firstOccurrences (([({ chunk_id := "a" } : SearchResult)] ++
        [({ chunk_id := "b" } : SearchResult)]).map SearchResult.chunk_id)).indexOf
      "a" <
    (firstOccurrences (([({ chunk_id := "a" } : SearchResult)] ++
        [({ chunk_id := "b" } : SearchResult)]).map SearchResult.chunk_id)).indexOf
      "b" := by
  have hfus : reciprocalRankFusion [({ chunk_id := "a" } : SearchResult)]
      [({ chunk_id := "b" } : SearchResult)] (1 / 2) =
      [({ chunk_id := "a", rrf_score := some (1 / 122) } : SearchResult),
       ({ chunk_id := "b", rrf_score := some (1 / 122) } : SearchResult)] := by
    unfold reciprocalRankFusion pySortScoresDesc lookupChunk
    norm_num [List.enum, List.enumFrom, updateScore, setChunk, setChunkIfAbsent,
      List.insertionSort, List.orderedInsert, scoreDescKey, List.lookup,
      show (("b" == "a") = false) from rfl, show (("a" == "a") = true) from rfl,
      show (("b" == "b") = true) from rfl, show (("a" == "b") = false) from rfl]
  have h := (rrf_deterministic_stable [({ chunk_id := "a" } : SearchResult)]
      [({ chunk_id := "b" } : SearchResult)] (1 / 2)).2.2.2 0 1 (by norm_num)
      ({ chunk_id := "a", rrf_score := some (1 / 122) } : SearchResult)
      ({ chunk_id := "b", rrf_score := some (1 / 122) } : SearchResult)
      (by rw [hfus]; rfl) (by rw [hfus]; rfl) rfl
  exact h

/-- C10: every candidate surviving fusion carries a strictly positive
rrf_score of at most n/61, n being the number of occurrences of its chunk
id across the two input lists; with deduplicated semantic hits and at most
three deduplicated keyword sub-searches, n ≤ 4; and whenever every chunk id
occurs at most 4 times, the retrieval_relevance component computed from the
citations of the fused (and truncated) ranking is strictly below 0.07 —
far from its nominal maximum of 1. -/
theorem rrf_relevance_bound (semantic keyword : List SearchResult) (alpha : ℚ)
    (h0 : 0 < alpha) (h1 : alpha < 1) :
    (∀ r ∈ reciprocalRankFusion semantic keyword alpha,
      0 < r.rrf_score.getD 0 ∧
      r.rrf_score.getD 0 ≤
        (((semantic ++ keyword).map SearchResult.chunk_id).count r.chunk_id : ℚ) / 61) ∧
    (∀ kws : List (List SearchResult), keyword = kws.flatten → kws.length ≤ 3 →
      (semantic.map SearchResult.chunk_id).Nodup →
      (∀ l ∈ kws, (l.map SearchResult.chunk_id).Nodup) →
      ∀ cid, ((semantic ++ keyword).map SearchResult.chunk_id).count cid ≤ 4) ∧
    (∀ m : ℕ,
      (∀ cid, ((semantic ++ keyword).map SearchResult.chunk_id).count cid ≤ 4) →
      scoreRetrievalRelevance
        (buildCitations ((reciprocalRankFusion semantic keyword alpha).take m)) <
        7 / 100) := by
  have hinv := chunkMapOf_inv semantic keyword
  have hout : ∀ r ∈ reciprocalRankFusion semantic keyword alpha,
      (∃ v, r.rrf_score = some v) ∧
      0 < r.rrf_score.getD 0 ∧
      r.rrf_score.getD 0 ≤
        (((semantic ++ keyword).map SearchResult.chunk_id).count r.chunk_id : ℚ) / 61 := by
    intro r hr
    rw [reciprocalRankFusion_eq] at hr
    rcases List.mem_map.1 hr with ⟨p, hp, rfl⟩
    have hp2 : p ∈ applyContribs (rrfContribs semantic keyword alpha) :=
      (pySortScoresDesc_perm _).mem_iff.1 hp
    rw [applyContribs_eq_canon] at hp2
    unfold canonScores at hp2
    rcases List.mem_map.1 hp2 with ⟨c, hcfo, rfl⟩
    have hcmem : c ∈ (rrfContribs semantic keyword alpha).map Prod.fst :=
      (mem_firstOccurrences _ _).1 hcfo
    have hb := sumForKey_bounds _ c
      (rrfContribs_weight_mem semantic keyword alpha h0 h1) hcmem
    refine ⟨⟨sumForKey (rrfContribs semantic keyword alpha) c, rfl⟩, ?_, ?_⟩
    · exact hb.1
    · have hcid : (({ lookupChunk (chunkMapOf semantic keyword) c with
          rrf_score := some (sumForKey (rrfContribs semantic keyword alpha) c) } :
            SearchResult)).chunk_id = c := lookupChunk_chunk_id _ _ hinv
      show sumForKey (rrfContribs semantic keyword alpha) c ≤ _
      rw [hcid, ← rrfContribs_keys semantic keyword alpha]
      exact hb.2
  refine ⟨fun r hr => ⟨(hout r hr).2.1, (hout r hr).2.2⟩, ?_, ?_⟩
  · -- occurrence bound from deduplicated inputs
    intro kws hkw hlen hnods hnodk cid
    subst hkw
    rw [List.map_append, List.count_append]
    have hsem : (semantic.map SearchResult.chunk_id).count cid ≤ 1 :=
      List.nodup_iff_count_le_one.1 hnods cid
    have hkw2 : ((kws.flatten).map SearchResult.chunk_id).count cid ≤ 3 := by
      rw [List.map_flatten, List.count_flatten]
      have hb : ∀ x ∈ (kws.map (List.map SearchResult.chunk_id)).map (List.count cid),
          x ≤ 1 := by
        intro x hx
        rcases List.mem_map.1 hx with ⟨l2, hl2, rfl⟩
        rcases List.mem_map.1 hl2 with ⟨l3, hl3, rfl⟩
        exact List.nodup_iff_count_le_one.1 (hnodk l3 hl3) cid
      have hs := List.sum_le_card_nsmul _ 1 hb
      rw [List.length_map, List.length_map, smul_eq_mul, mul_one] at hs
      exact le_trans hs hlen
    omega
  · -- retrieval relevance below 0.07
    intro m hcount
    have hall : ∀ cit ∈ buildCitations
        ((reciprocalRankFusion semantic keyword alpha).take m),
        cit.relevance_score ≤ 4 / 61 := by
      intro cit hcit
      unfold buildCitations at hcit
      rcases List.mem_map.1 hcit with ⟨r, hrt, rfl⟩
      have hrin : r ∈ reciprocalRankFusion semantic keyword alpha :=
        List.take_subset m _ hrt
      obtain ⟨⟨v, hv⟩, _, hle⟩ := hout r hrin
      have hrel : (buildCitation r).relevance_score = r.rrf_score.getD 0 := by
        show r.rrf_score.getD (r.relevance_score.getD 0) = r.rrf_score.getD 0
        rw [hv]
        rfl
      rw [hrel]
      have hc4 : (((semantic ++ keyword).map SearchResult.chunk_id).count
          r.chunk_id : ℚ) ≤ 4 := by
        exact_mod_cast hcount r.chunk_id
      calc r.rrf_score.getD 0
          ≤ (((semantic ++ keyword).map SearchResult.chunk_id).count
              r.chunk_id : ℚ) / 61 := hle
        _ ≤ 4 / 61 := by
            rw [div_le_div_iff_of_pos_right (by norm_num : (0:ℚ) < 61)]
            exact hc4
    unfold scoreRetrievalRelevance
    split
    · norm_num
    · rename_i hne
      set cits := buildCitations
        ((reciprocalRankFusion semantic keyword alpha).take m) with hcits
      have hlen : 0 < (cits.length : ℚ) := by
        have : cits ≠ [] := hne
        have hl : 0 < cits.length := List.length_pos.2 this
        exact_mod_cast hl
      have hbd : ∀ x ∈ cits.map Citation.relevance_score, x ≤ (4:ℚ) / 61 := by
        intro x hx
        rcases List.mem_map.1 hx with ⟨cit, hcm, rfl⟩
        exact hall cit hcm
      have hsum := List.sum_le_card_nsmul _ ((4:ℚ) / 61) hbd
      rw [List.length_map, nsmul_eq_mul] at hsum
      have hmean : (cits.map Citation.relevance_score).sum / (cits.length : ℚ) ≤
          4 / 61 := by
        rw [div_le_iff hlen]
        calc (cits.map Citation.relevance_score).sum
            ≤ (cits.length : ℚ) * (4 / 61) := hsum
          _ = 4 / 61 * (cits.length : ℚ) := by ring
      calc clamp01 ((cits.map Citation.relevance_score).sum / (cits.length : ℚ))
          ≤ max ((cits.map Citation.relevance_score).sum / (cits.length : ℚ)) 0 :=
            min_le_left _ _
        _ ≤ 4 / 61 := max_le hmean (by norm_num)
        _ < 7 / 100 := by norm_num

/-- Concrete instantiation of the relevance bound: a single semantic hit at
the default alpha 0.7 yields citations whose retrieval_relevance component
is below 0.07. -/
theorem rrf_relevance_bound_w :
    scoreRetrievalRelevance (buildCitations ((reciprocalRankFusion
      [({ chunk_id := "a" } : SearchResult)] [] (7 / 10)).take 4)) < 7 / 100 := by
  refine (rrf_relevance_bound [({ chunk_id := "a" } : SearchResult)] [] (7 / 10)
    (by norm_num) (by norm_num)).2.2 4 ?_
  intro cid
  calc (([({ chunk_id := "a" } : SearchResult)] ++ []).map
        SearchResult.chunk_id).count cid
      ≤ (([({ chunk_id := "a" } : SearchResult)] ++ []).map
          SearchResult.chunk_id).length := List.count_le_length _ _
    _ ≤ 4 := by simp

end SFI
